import Mathlib

/-!
Shallow embedding of the s3-simple-storage-service storage engine
(Go sources under internal/db, internal/server, internal/auth).

Machine integers are modelled as `Int`/`Nat`; time is modelled as an
integer number of days (the code only ever shifts `time.Now()` by whole
days via `AddDate(0,0,-d)`).  SQL tables become lists of rows; a gorm
query becomes a pure function over those lists.  Fallible code returns
`Option`/`Except`; a Go nil-pointer dereference becomes an explicit
`none`/`panic` constructor in the result type.
-/

namespace S3

/-! Data model: db models (Bucket, Blob, Object, ObjectVersion,
IdempotencyKey, LifecycleRule). -/

structure Bucket where
  id : Nat
  name : String
  ownerId : Nat
  deriving Repr, DecidableEq

/-- Blob row: content-addressed payload record.  `state` is `"pending"` or
`"ready"`; `checksum` is the string `"sha256:" ++ hex`. -/
structure Blob where
  id : String
  size : Int
  checksum : String
  state : String
  deriving Repr, DecidableEq

/-- Object row: the head pointer for one `(bucket_id, key)`. -/
structure Object where
  bucketId : Nat
  key : String
  blobId : String
  size : Int
  etag : String
  contentType : String
  headVersionId : String
  createdAt : Int
  deriving Repr, DecidableEq

/-- ObjectVersion row.  `blobId = none` together with `isDelete = true`
models a delete-marker. -/
structure ObjectVersion where
  versionId : String
  bucketId : Nat
  key : String
  blobId : Option String
  size : Option Int
  etag : Option String
  contentType : Option String
  isDelete : Bool
  createdAt : Int
  deriving Repr, DecidableEq

structure IdempotencyKey where
  bucketId : Nat
  key : String
  idemKey : String
  versionId : String
  etag : String
  deriving Repr, DecidableEq

/-- LifecycleRule row; the four thresholds are nullable columns, hence
`Option Int` (`pfx` is the rule's key-prefix column). -/
structure LifecycleRule where
  bucketId : Nat
  pfx : String
  enabled : Bool
  expireCurrentAfterDays : Option Int
  expireNoncurrentAfterDays : Option Int
  noncurrentNewerVersionsToKeep : Option Int
  purgeDeleteMarkersAfterDays : Option Int
  deriving Repr, DecidableEq

/-- The whole persistent state: the metadata tables plus the BlobStore
contents (`store` maps a blob id to its byte payload). -/
structure MetaState where
  buckets : List Bucket
  objects : List Object
  versions : List ObjectVersion
  blobs : List Blob
  idem : List IdempotencyKey
  store : List (String × List Nat)
  deriving Repr, DecidableEq

/-! MetaStore operations (internal/db). -/

/-- repo_buckets.go `BucketIDByName`: `WHERE name = ? AND owner_id = ?`. -/
def bucketIdByName (st : MetaState) (name : String) (ownerId : Nat) : Option Nat :=
  (st.buckets.find? fun b => b.name == name && b.ownerId == ownerId).map (·.id)

/-- repo_buckets.go `EnsureBucket`: `FirstOrCreate` by name, then an
owner-id backfill when the stored owner is 0 and the caller is not. -/
def ensureBucket (st : MetaState) (name : String) (ownerId : Nat) (freshId : Nat) :
    Nat × MetaState :=
  match st.buckets.find? fun b => b.name == name with
  | some b =>
    if b.ownerId == 0 && ownerId != 0 then
      (b.id, { st with buckets := st.buckets.map fun c =>
        if c.id == b.id then { c with ownerId := ownerId } else c })
    else (b.id, st)
  | none => (freshId, { st with buckets := st.buckets ++ [⟨freshId, name, ownerId⟩] })

/-- Object-row lookup by `(bucket_id, key)`. -/
def findObjectRow (st : MetaState) (bucketId : Nat) (key : String) : Option Object :=
  st.objects.find? fun o => o.bucketId == bucketId && o.key == key

/-- repo_objects.go `LockObjectForUpdate`: no-op UPDATE to lock the row,
creating the row (with zero-valued columns) when it is absent. -/
def lockObjectForUpdate (st : MetaState) (bucketId : Nat) (key : String) (now : Int) :
    MetaState :=
  match findObjectRow st bucketId key with
  | some _ => st
  | none => { st with objects := st.objects ++ [⟨bucketId, key, "", 0, "", "", "", now⟩] }

/-- repo_versions.go `GetVersionTx`: lookup by `version_id` alone — no
bucket or key condition appears in the query. -/
def getVersionTx (st : MetaState) (versionId : String) : Option ObjectVersion :=
  st.versions.find? fun v => v.versionId == versionId

/-- repo_versions.go `GetHeadVersionTx`: fetch the Object row, then fetch
the version whose id is the row's `head_version_id`. -/
def getHeadVersionTx (st : MetaState) (bucketId : Nat) (key : String) :
    Option ObjectVersion :=
  match findObjectRow st bucketId key with
  | none => none
  | some o => getVersionTx st o.headVersionId

/-- repo_versions.go `SetHeadVersionTx`: UPDATE `head_version_id` on the
rows matching `(bucket_id, key)`. -/
def setHeadVersionTx (st : MetaState) (bucketId : Nat) (key versionId : String) :
    MetaState :=
  { st with objects := st.objects.map fun o =>
      if o.bucketId == bucketId && o.key == key then
        { o with headVersionId := versionId } else o }

/-- repo_versions.go `InsertObjectVersionTx` (non-delete version). -/
def insertObjectVersionTx (st : MetaState) (bucketId : Nat) (key versionId blobId : String)
    (size : Int) (etag contentType : String) (now : Int) : MetaState :=
  { st with versions := st.versions ++
      [⟨versionId, bucketId, key, some blobId, some size, some etag, some contentType,
        false, now⟩] }

/-- repo_versions.go `CreateDeleteMarkerTx`. -/
def createDeleteMarkerTx (st : MetaState) (bucketId : Nat) (key versionId : String)
    (now : Int) : MetaState :=
  { st with versions := st.versions ++
      [⟨versionId, bucketId, key, none, none, none, none, true, now⟩] }

/-- repo_versions.go `DeleteVersionTx`: DELETE by `version_id`. -/
def deleteVersionTx (st : MetaState) (versionId : String) : MetaState :=
  { st with versions := st.versions.filter fun v => v.versionId != versionId }

/-- Newest row under `ORDER BY created_at DESC` followed by `First`.
SQL leaves the order of equal timestamps unspecified; the model keeps the
earliest list position among ties. -/
def pickNewest : List ObjectVersion → Option ObjectVersion
  | [] => none
  | v :: rest =>
    match pickNewest rest with
    | none => some v
    | some w => if w.createdAt > v.createdAt then some w else some v

/-- repo_versions.go `GetPrevVersionTx`: newest version of the key other
than the excluded id. -/
def getPrevVersionTx (st : MetaState) (bucketId : Nat) (key excl : String) :
    Option ObjectVersion :=
  pickNewest (st.versions.filter fun v =>
    v.bucketId == bucketId && v.key == key && v.versionId != excl)

/-- repo_objects.go `UpsertObjectTx`: insert, or on `(bucket_id,key)`
conflict update blob/size/etag/content-type/head columns. -/
def upsertObjectTx (st : MetaState) (bucketId : Nat) (key blobId : String) (size : Int)
    (etag contentType headVersionId : String) (now : Int) : MetaState :=
  match findObjectRow st bucketId key with
  | some _ =>
    { st with objects := st.objects.map fun o =>
        if o.bucketId == bucketId && o.key == key then
          { o with blobId := blobId, size := size, etag := etag,
                   contentType := contentType, headVersionId := headVersionId }
        else o }
  | none =>
    { st with objects := st.objects ++
        [⟨bucketId, key, blobId, size, etag, contentType, headVersionId, now⟩] }

/-- repo_blobs.go `FindBlobByChecksumTx`: `WHERE checksum = ? AND state = 'ready'`. -/
def findBlobByChecksumTx (st : MetaState) (checksum : String) : Option Blob :=
  st.blobs.find? fun b => b.checksum == checksum && b.state == "ready"

/-- repo_blobs.go `ReserveBlobPendingTx`. -/
def reserveBlobPendingTx (st : MetaState) (id checksum : String) (size : Int) : MetaState :=
  { st with blobs := st.blobs ++ [⟨id, size, checksum, "pending"⟩] }

/-- repo_blobs.go `MarkBlobReadyTx`. -/
def markBlobReadyTx (st : MetaState) (id : String) : MetaState :=
  { st with blobs := st.blobs.map fun b =>
      if b.id == id then { b with state := "ready" } else b }

/-- repo_blobs.go `DeleteBlobRecordTx`. -/
def deleteBlobRecordTx (st : MetaState) (id : String) : MetaState :=
  { st with blobs := st.blobs.filter fun b => b.id != id }

/-- repo_blobs.go `BlobRefCountFromVersionsTx`: count of version rows with
`blob_id = ?` (delete-markers have a NULL blob id and never match). -/
def blobRefCountFromVersionsTx (st : MetaState) (blobId : String) : Nat :=
  (st.versions.filter fun v => v.blobId == some blobId).length

/-- repo_blobs.go `GetBlob`: record lookup by id. -/
def getBlob (st : MetaState) (id : String) : Option Blob :=
  st.blobs.find? fun b => b.id == id

/-- BlobStore `Delete`: idempotent removal of the bytes under `id`. -/
def storageDelete (st : MetaState) (id : String) : MetaState :=
  { st with store := st.store.filter fun e => e.1 != id }

/-- BlobStore `BeginWrite`+`Commit`: publish `body` under `id`. -/
def storagePut (st : MetaState) (id : String) (body : List Nat) : MetaState :=
  { st with store := st.store ++ [(id, body)] }

/-- BlobStore `ReadAt`: positional read, `length < 0` meaning to-end; a
read past the end yields the bytes that exist. -/
def storageReadAt (st : MetaState) (id : String) (start length : Int) :
    Option (List Nat) :=
  (st.store.find? fun e => e.1 == id).map fun e =>
    if length < 0 then e.2.drop start.toNat
    else (e.2.drop start.toNat).take length.toNat

/-- idempotency_repo.go `GetIdempotencyTx`: lookup by the composite key. -/
def getIdempotencyTx (st : MetaState) (bucketId : Nat) (key idemKey : String) :
    Option (String × String) :=
  (st.idem.find? fun it =>
    it.bucketId == bucketId && it.key == key && it.idemKey == idemKey).map
    fun it => (it.versionId, it.etag)

/-- idempotency_repo.go `SaveIdempotencyTx`: insert with ON CONFLICT DO
NOTHING on the composite primary key. -/
def saveIdempotencyTx (st : MetaState) (bucketId : Nat) (key idemKey versionId etag : String) :
    MetaState :=
  if st.idem.any fun it =>
      it.bucketId == bucketId && it.key == key && it.idemKey == idemKey then st
  else { st with idem := st.idem ++ [⟨bucketId, key, idemKey, versionId, etag⟩] }

/-! Range handling (handleGet, auth_middleware.go lines 403-447). -/

/-- Decimal value of a digit list (used by the ParseInt model). -/
def natOfDigits (cs : List Char) : Nat :=
  cs.foldl (fun acc c => 10 * acc + (c.toNat - '0'.toNat)) 0

/-- Go `strconv.ParseInt(s, 10, 64)` as the handler uses it: the error is
discarded (`as, _ := strconv.ParseInt(...)`), so a string that fails to
parse yields 0.  64-bit overflow is not modelled. -/
def goParseInt (cs : List Char) : Int :=
  match cs with
  | [] => 0
  | c :: rest =>
    if c == '+' then
      if !rest.isEmpty && rest.all Char.isDigit then (natOfDigits rest : Int) else 0
    else if c == '-' then
      if !rest.isEmpty && rest.all Char.isDigit then -(natOfDigits rest : Int) else 0
    else
      if (c :: rest).all Char.isDigit then (natOfDigits (c :: rest) : Int) else 0

/-- Go `strings.IndexByte(spec, '-')` followed by the two slices
`spec[:i]` and `spec[i+1:]`; `none` when no dash occurs. -/
def splitAtFirstDash : List Char → Option (List Char × List Char)
  | [] => none
  | c :: rest =>
    if c == '-' then some ([], rest)
    else
      match splitAtFirstDash rest with
      | none => none
      | some (a, z) => some (c :: a, z)

/-- Outcome of the Range branch of handleGet: the untouched 200 path, the
416 rejection, or a 206 with start offset, read length and the
Content-Range header value. -/
inductive RangeOutcome where
  | full : RangeOutcome
  | invalidRange : RangeOutcome
  | part (start length : Int) (contentRange : String) : RangeOutcome
  deriving Repr, DecidableEq

/-- Validation of the part after `bytes=`, split at the first dash; Go
ParseInt errors are discarded (value 0); the three switch cases mirror the
Go code, and any other shape leaves the 200 whole-body path untouched. -/
def rangeSpec (total : Int) (spec : List Char) : RangeOutcome :=
  match splitAtFirstDash spec with
  | none => .full
  | some (a, z) =>
    if !a.isEmpty && !z.isEmpty then
      let as := goParseInt a
      let bs := goParseInt z
      if as < 0 ∨ bs < as ∨ total ≤ as then .invalidRange
      else .part as (bs - as + 1)
        ("bytes " ++ toString as ++ "-" ++ toString bs ++ "/" ++ toString total)
    else if !a.isEmpty then
      let as := goParseInt a
      if as < 0 ∨ total ≤ as then .invalidRange
      else .part as (total - as)
        ("bytes " ++ toString as ++ "-" ++ toString (total - 1) ++ "/" ++ toString total)
    else if !z.isEmpty then
      let zs := goParseInt z
      if zs ≤ 0 then .invalidRange
      else
        let zs := if total < zs then total else zs
        .part (total - zs) zs
          ("bytes " ++ toString (total - zs) ++ "-" ++ toString (total - 1) ++ "/" ++
            toString total)
    else .full

/-- The Range branch of handleGet: a header that does not start with
`bytes=` is ignored (the 200 whole-body path). -/
def rangeDecision (total : Int) (rangeHeader : String) : RangeOutcome :=
  match rangeHeader.data with
  | 'b' :: 'y' :: 't' :: 'e' :: 's' :: '=' :: spec => rangeSpec total spec
  | _ => .full

/-- Status line and body the Range branch produces for a blob of the given
recorded size whose stored bytes are `bytes` (the body is what
`io.Copy` of `ReadAt(start, length)` yields). -/
structure RangeResponse where
  status : Nat
  body : List Nat
  contentRange : Option String
  deriving Repr, DecidableEq

def serveRange (total : Int) (rangeHeader : String) (bytes : List Nat) : RangeResponse :=
  match rangeDecision total rangeHeader with
  | .full => ⟨200, bytes, none⟩
  | .invalidRange => ⟨416, [], none⟩
  | .part s l cr => ⟨206, (bytes.drop s.toNat).take l.toNat, some cr⟩

/-! GET object (handleGet). -/

/-- Go `stripQuotes`: trim whitespace, then drop one symmetric pair of
double quotes. -/
def stripQuotes (s : String) : String :=
  let t := s.trim
  if 2 ≤ t.length ∧ t.front = '"' ∧ t.back = '"' then (t.drop 1).dropRight 1 else t

inductive GetResult where
  | httpError (status : Nat) (code : String)
  | preconditionFailed412
  | notModified304
  | panicNilDeref
  | ok (status : Nat) (versionId : String) (etag : Option String)
      (contentRange : Option String) (body : List Nat)
  deriving Repr, DecidableEq

/-- handleGet: bucket lookup, head-or-version resolution (a `versionId`
query fetches by id alone), delete-marker check, blob fetch (a nil
`ver.BlobID` would be dereferenced — modelled as a panic), conditional
predicates, then the Range branch and the positional read.  Header strings
use `""` for an absent header, as `r.Header.Get` does. -/
def handleGet (st : MetaState) (ownerId : Nat) (bucket key : String)
    (versionId ifMatch ifNoneMatch rangeHeader : String) : GetResult :=
  match bucketIdByName st bucket ownerId with
  | none => .httpError 404 "NoSuchBucket"
  | some bucketId =>
    let ver? := if versionId == "" then getHeadVersionTx st bucketId key
                else getVersionTx st versionId
    match ver? with
    | none => .httpError 404 "NoSuchKey"
    | some ver =>
      if ver.isDelete then .httpError 404 "NoSuchKey"
      else
        match ver.blobId with
        | none => .panicNilDeref
        | some blobId =>
          match getBlob st blobId with
          | none => .httpError 500 "InternalError"
          | some b =>
            let etagBad :=
              match ver.etag with
              | some e => ifMatch != "" && stripQuotes ifMatch != stripQuotes e
              | none => false
            if etagBad then .preconditionFailed412
            else
              let etagSame :=
                match ver.etag with
                | some e => ifNoneMatch != "" && stripQuotes ifNoneMatch == stripQuotes e
                | none => false
              if etagSame then .notModified304
              else
                match rangeDecision b.size rangeHeader with
                | .invalidRange => .httpError 416 "RequestedRangeNotSatisfiable"
                | .full =>
                  match storageReadAt st blobId 0 (-1) with
                  | none => .httpError 500 "InternalError"
                  | some body => .ok 200 ver.versionId ver.etag none body
                | .part s l cr =>
                  match storageReadAt st blobId s l with
                  | none => .httpError 500 "InternalError"
                  | some body => .ok 206 ver.versionId ver.etag (some cr) body

/-! PUT object (handlePut). -/

structure PutOutcome where
  status : Nat
  code : String
  versionId : String
  etag : String
  deriving Repr, DecidableEq

/-- The dedup-or-reserve step plus version insert, head upsert and
idempotency record, i.e. the tail of handlePut's metadata transaction
after the idempotency probe missed. -/
def putCommit (st : MetaState) (bucketId : Nat) (key newBlobId verId : String)
    (size : Int) (checksum etag contentType idem : String) (now : Int) :
    MetaState × PutOutcome :=
  let (useBlobId, useSize, st) :=
    match findBlobByChecksumTx st checksum with
    | some exist => (exist.id, exist.size, storageDelete st newBlobId)
    | none =>
      let st := reserveBlobPendingTx st newBlobId checksum size
      let st := markBlobReadyTx st newBlobId
      (newBlobId, size, st)
  let st := insertObjectVersionTx st bucketId key verId useBlobId useSize etag contentType now
  let st := upsertObjectTx st bucketId key useBlobId useSize etag contentType verId now
  let st := setHeadVersionTx st bucketId key verId
  let st := if idem != "" then saveIdempotencyTx st bucketId key idem verId etag else st
  (st, ⟨200, "", verId, etag⟩)

/-- handlePut: ensure bucket, ingest the body into the BlobStore outside
the transaction, validate Content-Length and x-amz-content-sha256 (a
mismatch deletes the staged blob and answers BadDigest), then the per-key
locked transaction: idempotency probe (a hit returns the stored pair,
mutates nothing, and the staged blob is deleted after the transaction),
dedup probe, version insert, head update, idempotency record.
`h` is the SHA-256 hex function applied to the body; `contentLength` is
`r.ContentLength` (-1 when unknown); `amzSha`, `idem` and `ctypeHdr` are
header values with `""` for absent; `freshBucketId`, `newBlobId` and
`verId` are the randomly generated ids. -/
def handlePut (st : MetaState) (ownerId : Nat) (bucket key : String)
    (body : List Nat) (contentLength : Int) (amzSha idem ctypeHdr : String)
    (h : List Nat → String) (freshBucketId : Nat) (newBlobId verId : String)
    (now : Int) : MetaState × PutOutcome :=
  let (bucketId, st) := ensureBucket st bucket ownerId freshBucketId
  let st := storagePut st newBlobId body
  let size : Int := body.length
  let sumHex := h body
  let checksum := "sha256:" ++ sumHex
  let etag := "\"" ++ checksum ++ "\""
  let contentType := if ctypeHdr == "" then "application/octet-stream" else ctypeHdr
  if 0 ≤ contentLength ∧ size ≠ contentLength then
    (storageDelete st newBlobId, ⟨400, "BadDigest", "", ""⟩)
  else if amzSha ≠ "" ∧ amzSha ≠ sumHex ∧ amzSha ≠ "UNSIGNED-PAYLOAD" then
    (storageDelete st newBlobId, ⟨400, "BadDigest", "", ""⟩)
  else
    let st := lockObjectForUpdate st bucketId key now
    match (if idem != "" then getIdempotencyTx st bucketId key idem else none) with
    | some (v0, e0) => (storageDelete st newBlobId, ⟨200, "", v0, e0⟩)
    | none => putCommit st bucketId key newBlobId verId size checksum etag contentType idem now

/-! DELETE object (handleDelete). -/

inductive DelResult where
  | httpError (status : Nat) (code : String)
  | noContent204 (returnVersion : String)
  deriving Repr, DecidableEq

/-- The head-rewiring block of handleDelete: if the head lookup misses or
still names the removed id, point the head at the newest remaining
version, or at a fresh delete-marker when none remains. -/
def rewireHead (st : MetaState) (bucketId : Nat) (key versionId freshDm : String)
    (now : Int) : MetaState :=
  let headMissing :=
    match getHeadVersionTx st bucketId key with
    | none => true
    | some hd => hd.versionId == versionId
  if headMissing then
    match getPrevVersionTx st bucketId key versionId with
    | some prev => setHeadVersionTx st bucketId key prev.versionId
    | none =>
      setHeadVersionTx (createDeleteMarkerTx st bucketId key freshDm now)
        bucketId key freshDm
  else st

/-- The in-transaction blob GC block shared by handleDelete and the
lifecycle worker: when the removed version referenced a blob and no
version row references it any more, delete the bytes and the record. -/
def gcBlobIfOrphan (st : MetaState) (removed : ObjectVersion) : MetaState :=
  match removed.blobId with
  | some blobId =>
    if blobRefCountFromVersionsTx st blobId == 0 then
      deleteBlobRecordTx (storageDelete st blobId) blobId
    else st
  | none => st

/-- The versioned-delete transaction body of handleDelete: fetch by id
(404 NoSuchVersion on miss), delete the row, rewire the head, GC the
blob. -/
def versionedDeleteTx (st : MetaState) (bucketId : Nat) (key versionId freshDm : String)
    (now : Int) : MetaState × DelResult :=
  match getVersionTx st versionId with
  | none => (st, .httpError 404 "NoSuchVersion")
  | some ver =>
    let st := deleteVersionTx st versionId
    let st := rewireHead st bucketId key versionId freshDm now
    let st := gcBlobIfOrphan st ver
    (st, .noContent204 versionId)

/-- handleDelete: bucket lookup, per-key lock, then either the soft delete
(insert a delete-marker, set head) or the versioned permanent delete with
head rewiring and in-transaction blob GC.  `freshDm` is the generated
delete-marker id for whichever branch needs one. -/
def handleDelete (st : MetaState) (ownerId : Nat) (bucket key : String)
    (versionId freshDm : String) (now : Int) : MetaState × DelResult :=
  match bucketIdByName st bucket ownerId with
  | none => (st, .httpError 404 "NoSuchBucket")
  | some bucketId =>
    let st := lockObjectForUpdate st bucketId key now
    if versionId == "" then
      let st := createDeleteMarkerTx st bucketId key freshDm now
      let st := setHeadVersionTx st bucketId key freshDm
      (st, .noContent204 freshDm)
    else
      versionedDeleteTx st bucketId key versionId freshDm now

/-! DELETE bucket (handleDeleteBucket, DeleteBucketIfEmpty). -/

inductive DbErr where
  | notFound
  | bucketNotEmpty
  deriving Repr, DecidableEq

/-- repo_buckets.go `DeleteBucketIfEmpty`: count Object rows, count
version rows, and delete the bucket row only when both counts are zero. -/
def deleteBucketIfEmpty (st : MetaState) (bucketId : Nat) : Except DbErr MetaState :=
  if 0 < (st.objects.filter fun o => o.bucketId == bucketId).length then
    .error .bucketNotEmpty
  else if 0 < (st.versions.filter fun v => v.bucketId == bucketId).length then
    .error .bucketNotEmpty
  else .ok { st with buckets := st.buckets.filter fun b => b.id != bucketId }

structure HttpAnswer where
  status : Nat
  code : String
  deriving Repr, DecidableEq

/-- handleDeleteBucket: after the transaction the handler checks only the
BucketNotEmpty error and then unconditionally writes the InternalError
response; the `w.WriteHeader(http.StatusNoContent)` line below that write
is unreachable, so the success path also answers 500 (with the bucket row
already deleted by the committed transaction). -/
def handleDeleteBucket (st : MetaState) (ownerId : Nat) (bucket : String) :
    MetaState × HttpAnswer :=
  if bucket == "" then (st, ⟨400, "BadRequest"⟩)
  else
    match bucketIdByName st bucket ownerId with
    | none => (st, ⟨404, "NoSuchBucket"⟩)
    | some bucketId =>
      match deleteBucketIfEmpty st bucketId with
      | .error .bucketNotEmpty => (st, ⟨409, "BucketNotEmpty"⟩)
      | .error _ => (st, ⟨500, "InternalError"⟩)
      | .ok st' => (st', ⟨500, "InternalError"⟩)

/-! Lifecycle worker (internal/server/lifecycle.go, internal/db/db.go
listing queries).  `now` is the pass time in days; `AddDate(0,0,-d)`
becomes `now - d`. -/

/-- SQL `key LIKE pfx || '%'`: the key starts with the rule's prefix
(computed over the character lists). -/
def hasPfx (pfx key : String) : Bool :=
  pfx.data.isPrefixOf key.data

/-- Insert into a list kept ascending by the measure `f` (model of
`ORDER BY created_at ASC`; SQL leaves ties unspecified, the model keeps
list order). -/
def insertAscBy (f : α → Int) (x : α) : List α → List α
  | [] => [x]
  | y :: ys => if f x < f y then x :: y :: ys else y :: insertAscBy f x ys

/-- Stable ascending sort by an integer measure. -/
def sortAscBy (f : α → Int) : List α → List α
  | [] => []
  | x :: xs => insertAscBy f x (sortAscBy f xs)

/-- db.go `ListNoncurrentByAge`: non-delete versions of the bucket whose
key matches the rule's LIKE pattern and whose `created_at` is older than
the cutoff, oldest first, up to `limit`.  Despite the name, the query has
no condition excluding the key's current head version. -/
def listNoncurrentByAge (st : MetaState) (bucketId : Nat) (pfx : String)
    (olderThan : Int) (limit : Nat) : List ObjectVersion :=
  (sortAscBy (·.createdAt) (st.versions.filter fun v =>
    v.bucketId == bucketId && hasPfx pfx v.key && !v.isDelete &&
      decide (v.createdAt < olderThan))).take limit

/-- db.go `ListDeleteMarkersForPurge`: delete-markers of the bucket older
than the cutoff, oldest first, up to `limit`. -/
def listDeleteMarkersForPurge (st : MetaState) (bucketId : Nat) (pfx : String)
    (olderThan : Int) (limit : Nat) : List ObjectVersion :=
  (sortAscBy (·.createdAt) (st.versions.filter fun v =>
    v.bucketId == bucketId && hasPfx pfx v.key && v.isDelete &&
      decide (v.createdAt < olderThan))).take limit

/-- db.go `ListHeadsOlderThan`: Object rows of the bucket older than the
cutoff, oldest first, up to `limit`. -/
def listHeadsOlderThan (st : MetaState) (bucketId : Nat) (pfx : String)
    (olderThan : Int) (limit : Nat) : List Object :=
  (sortAscBy (·.createdAt) (st.objects.filter fun o =>
    o.bucketId == bucketId && hasPfx pfx o.key &&
      decide (o.createdAt < olderThan))).take limit

/-- One iteration of lifecycle.go `deleteVersionsTx`: per-key lock, delete
the version row, and if the referenced blob lost its last referencing
version delete its bytes and its record. -/
def lcDeleteOne (now : Int) (st : MetaState) (v : ObjectVersion) : MetaState :=
  let st := lockObjectForUpdate st v.bucketId v.key now
  let st := deleteVersionTx st v.versionId
  gcBlobIfOrphan st v

/-- lifecycle.go `deleteVersionsTx` over the whole candidate batch. -/
def deleteVersionsTx (vers : List ObjectVersion) (st : MetaState) (now : Int) : MetaState :=
  vers.foldl (lcDeleteOne now) st

/-- One iteration of lifecycle.go `purgeDeleteMarkersTx`: per-key lock,
fetch the current head, skip when the candidate is the head, otherwise
delete the marker row. -/
def purgeOneDM (st : MetaState) (dm : ObjectVersion) (now : Int) : MetaState :=
  let st := lockObjectForUpdate st dm.bucketId dm.key now
  match getHeadVersionTx st dm.bucketId dm.key with
  | some hd => if hd.versionId == dm.versionId then st else deleteVersionTx st dm.versionId
  | none => deleteVersionTx st dm.versionId

/-- lifecycle.go `purgeDeleteMarkersTx` over the whole candidate batch. -/
def purgeDeleteMarkersTx (dms : List ObjectVersion) (st : MetaState) (now : Int) :
    MetaState :=
  dms.foldl (fun st dm => purgeOneDM st dm now) st

/-- lifecycle.go `expireCurrentTx`: for each listed head, per-key lock,
insert a fresh delete-marker and point the head at it.  `gen i` is the
version id `GenVersionID` produces for the i-th object of the batch. -/
def expireCurrentTx (objs : List Object) (gen : Nat → String) (now : Int)
    (st : MetaState) : MetaState :=
  (objs.enum).foldl
    (fun st p =>
      let o := p.2
      let st := lockObjectForUpdate st o.bucketId o.key now
      let dm := gen p.1
      let st := createDeleteMarkerTx st o.bucketId o.key dm now
      setHeadVersionTx st o.bucketId o.key dm)
    st

/-- The expire-current branch of lifecycle.go `onePass` (lines 108-121):
guarded by `ExpireCurrentAfterDays != nil && *ExpireCurrentAfterDays >= 0`,
but the cutoff is computed from `*rule.PurgeDeleteMarkersAfterDays`;
when that pointer is nil the dereference panics — modelled as `none`. -/
def onePassExpireCurrent (rule : LifecycleRule) (st : MetaState) (now : Int)
    (batch : Nat) (gen : Nat → String) : Option MetaState :=
  match rule.expireCurrentAfterDays with
  | none => some st
  | some c =>
    if 0 ≤ c then
      match rule.purgeDeleteMarkersAfterDays with
      | none => none
      | some d =>
        some (expireCurrentTx (listHeadsOlderThan st rule.bucketId rule.pfx (now - d) batch)
          gen now st)
    else some st

/-! SigV4 verification tail (internal/auth/sigv4.go lines 133-157) and the
authentication middleware (internal/server/auth_middleware.go lines
30-52). -/

/-- Go `strings.ToLower` on the ASCII hex signature, computed per
character. -/
def asciiToLower (s : String) : String :=
  ⟨s.data.map Char.toLower⟩

structure SigResult where
  accessKeyID : String
  deriving Repr, DecidableEq

/-- The Go `error` values this fragment can carry. -/
inductive GoErr where
  | lookupErr (msg : String)
  | sigMismatch
  deriving Repr, DecidableEq

/-- VerifySigV4 from the signing-key derivation on: `lookup` is
`cred.LookupSecret`; `expectedSigOf secret` stands for the
kDate/kRegion/kService/kSigning HMAC chain applied to the string-to-sign,
producing the expected hex signature.  The Go code returns the pair
`(*Result, error)`: a failed lookup returns that error; on a constant-time
comparison mismatch it executes `return nil, err` where `err` is nil at
that point, i.e. it returns `(none, none)`. -/
def verifySigTail (lookup : String → Except String String)
    (expectedSigOf : String → String) (accessKeyID signatureHex : String) :
    Option SigResult × Option GoErr :=
  match lookup accessKeyID with
  | .error msg => (none, some (.lookupErr msg))
  | .ok secret =>
    if expectedSigOf secret == asciiToLower signatureHex then (some ⟨accessKeyID⟩, none)
    else (none, none)

inductive MWOutcome where
  | forbidden403 (code : String)
  | proceedAs (accessKeyID : String)
  | panicNilDeref
  deriving Repr, DecidableEq

/-- AuthMiddleware on the verification result: a non-nil error answers 403
SignatureDoesNotMatch; otherwise the handler reads `res.AccessKeyID`,
which dereferences a nil `*Result` when the pair was `(nil, nil)`. -/
def authMiddleware (vr : Option SigResult × Option GoErr) : MWOutcome :=
  match vr.2 with
  | some _ => .forbidden403 "SignatureDoesNotMatch"
  | none =>
    match vr.1 with
    | some res => .proceedAs res.accessKeyID
    | none => .panicNilDeref

/-! Invariant predicates and concrete example states used by the
theorems below. -/

/-- Head-consistency invariant (spec P4): every Object row's
`head_version_id` names a version row that still exists for that
`(bucket, key)`. -/
def headConsistent (st : MetaState) : Prop :=
  ∀ o ∈ st.objects, ∃ v ∈ st.versions,
    v.versionId = o.headVersionId ∧ v.bucketId = o.bucketId ∧ v.key = o.key

/-- One bucket, one key `k` whose only (head) version `v1` is an old
non-delete version referencing blob `bl1`. -/
def exStaleHeadState : MetaState :=
  { buckets := [⟨1, "b", 1⟩],
    objects := [⟨1, "k", "bl1", 3, "\"sha256:x\"", "ct", "v1", 0⟩],
    versions := [⟨"v1", 1, "k", some "bl1", some 3, some "\"sha256:x\"", some "ct", false, 0⟩],
    blobs := [⟨"bl1", 3, "sha256:x", "ready"⟩],
    idem := [],
    store := [("bl1", [1, 2, 3])] }

/-- One existing bucket `b` with no objects and no versions. -/
def exEmptyBucketState : MetaState :=
  { buckets := [⟨1, "b", 1⟩], objects := [], versions := [], blobs := [],
    idem := [], store := [] }

/-- One bucket with a single head of age 5 days at `now = 20`. -/
def exHeadAge5State : MetaState :=
  { buckets := [⟨1, "b", 1⟩],
    objects := [⟨1, "k", "bl1", 3, "e", "ct", "v1", 15⟩],
    versions := [⟨"v1", 1, "k", some "bl1", some 3, some "e", some "ct", false, 15⟩],
    blobs := [⟨"bl1", 3, "sha256:x", "ready"⟩],
    idem := [], store := [] }

/-- Enabled rule with `expire_current_after_days = 10` and
`purge_delete_markers_after_days = 1`. -/
def exRuleC10D1 : LifecycleRule := ⟨1, "", true, some 10, none, none, some 1⟩

/-- Enabled rule with `expire_current_after_days = 10` and a nil
`purge_delete_markers_after_days`. -/
def exRuleC10Dnil : LifecycleRule := ⟨1, "", true, some 10, none, none, none⟩

/-- A credentials provider whose lookup always succeeds. -/
def exLookupOk : String → Except String String := fun _ => .ok "topsecret"

/-- A signing chain whose expected signature is a fixed hex value. -/
def exExpectedSig : String → String := fun _ => "aaaa"

/-- The bytes of the 6-byte body `"abcdef"`. -/
def exAbcdef : List Nat := [97, 98, 99, 100, 101, 102]

/-- A key whose current head is the delete-marker `dm1`, which is also an
old purge candidate. -/
def exDMHead : ObjectVersion := ⟨"dm1", 1, "k", none, none, none, none, true, 0⟩

def exDMHeadState : MetaState :=
  { buckets := [⟨1, "b", 1⟩],
    objects := [⟨1, "k", "", 0, "", "", "dm1", 0⟩],
    versions := [exDMHead],
    blobs := [], idem := [], store := [] }

/-- A hash-function stand-in for the witnesses: two byte strings, two hex
values. -/
def exHash : List Nat → String := fun b => if b = [65] then "hA" else "hB"

/-- State after a first PUT of body `[65]` with idempotency token `tok`:
the token maps to `(v1, etag)` and the object row exists. -/
def exReplayState : MetaState :=
  { buckets := [⟨1, "b", 7⟩],
    objects := [⟨1, "k", "bl1", 1, "\"sha256:hA\"", "ct", "v1", 0⟩],
    versions := [⟨"v1", 1, "k", some "bl1", some 1, some "\"sha256:hA\"", some "ct", false, 0⟩],
    blobs := [⟨"bl1", 1, "sha256:hA", "ready"⟩],
    idem := [⟨1, "k", "tok", "v1", "\"sha256:hA\""⟩],
    store := [("bl1", [65])] }

/-- A bucket with nothing in it yet, owned by user 7. -/
def exFreshBucketState : MetaState :=
  { buckets := [⟨1, "b", 7⟩], objects := [], versions := [], blobs := [],
    idem := [], store := [] }

/-- Two buckets, two keys, two versions: `vB` belongs to bucket `b2`, key
`k2` and references blob `blB` with byte `[66]`. -/
def exCrossState : MetaState :=
  { buckets := [⟨1, "b1", 7⟩, ⟨2, "b2", 7⟩],
    objects := [⟨1, "k1", "blA", 1, "eA", "ct", "vA", 0⟩,
                ⟨2, "k2", "blB", 1, "eB", "ct", "vB", 0⟩],
    versions := [⟨"vA", 1, "k1", some "blA", some 1, some "eA", some "ct", false, 0⟩,
                 ⟨"vB", 2, "k2", some "blB", some 1, some "eB", some "ct", false, 0⟩],
    blobs := [⟨"blA", 1, "sha256:a", "ready"⟩, ⟨"blB", 1, "sha256:b", "ready"⟩],
    idem := [],
    store := [("blA", [65]), ("blB", [66])] }

end S3

open S3

/-- C1: head consistency (spec P4) is violated by the
expire-noncurrent-by-age action.  `ListNoncurrentByAge` filters only on
bucket, key-LIKE, `is_delete = FALSE` and age — it does not exclude the
key's current head — and `deleteVersionsTx` deletes each candidate without
rewiring the head.  On a key whose only version is an old non-delete head,
one batch deletes that version and leaves `head_version_id = "v1"`
dangling, so the invariant fails after a completed lifecycle mutation. -/
theorem lifecycle_noncurrent_expiry_breaks_head_consistency :
    headConsistent exStaleHeadState ∧
    listNoncurrentByAge exStaleHeadState 1 "" 10 100 ≠ [] ∧
    ¬ headConsistent
      (deleteVersionsTx (listNoncurrentByAge exStaleHeadState 1 "" 10 100)
        exStaleHeadState 10) := by
  refine ⟨?_, by decide, ?_⟩
  · simp only [headConsistent]
    decide
  · simp only [headConsistent]
    decide

/-- C2: `DELETE /{bucket}` never answers 204.  After the transaction the
handler checks only the BucketNotEmpty error and then unconditionally
writes InternalError, so deleting an existing empty bucket answers 500
even though the bucket row was removed; the 409 and 404 legs do hold. -/
theorem delete_bucket_success_answers_500 :
    (handleDeleteBucket exEmptyBucketState 1 "b").2 = ⟨500, "InternalError"⟩ ∧
    (handleDeleteBucket exEmptyBucketState 1 "b").1.buckets = [] ∧
    (handleDeleteBucket exStaleHeadState 1 "b").2 = ⟨409, "BucketNotEmpty"⟩ ∧
    (handleDeleteBucket exEmptyBucketState 1 "c").2 = ⟨404, "NoSuchBucket"⟩ := by
  refine ⟨rfl, rfl, ?_, rfl⟩
  decide

/-- C3: the expire-current action computes its cutoff from
`purge_delete_markers_after_days` instead of `expire_current_after_days`.
With `C = 10`, `D = 1`, `now = 20` and a head aged 5 days, the claim's
cutoff `now - C` selects nothing, yet the code's pass selects the head and
replaces it with a delete-marker. -/
theorem expire_current_uses_wrong_cutoff :
    listHeadsOlderThan exHeadAge5State 1 "" (20 - 10) 100 = [] ∧
    listHeadsOlderThan exHeadAge5State 1 "" (20 - 1) 100 ≠ [] ∧
    ∃ st', onePassExpireCurrent exRuleC10D1 exHeadAge5State 20 100 (fun _ => "dm0")
        = some st' ∧
      (getHeadVersionTx st' 1 "k").map (·.isDelete) = some true := by
  refine ⟨by decide, by decide, ?_⟩
  exact ⟨_, rfl, by decide⟩

/-- C4: on a mismatched signature VerifySigV4 executes `return nil, err`
where `err` is nil, so it returns `(nil, nil)`; the middleware sees no
error, skips the 403 path and dereferences the nil result.  (A failed
secret lookup does return its non-nil error, but not
`ErrSignatureMismatch`.) -/
theorem sigv4_mismatch_returns_nil_nil :
    verifySigTail exLookupOk exExpectedSig "AKIA" "bbbb" = (none, none) ∧
    authMiddleware (verifySigTail exLookupOk exExpectedSig "AKIA" "bbbb")
      = .panicNilDeref ∧
    verifySigTail (fun _ => .error "db down") exExpectedSig "AKIA" "bbbb"
      = (none, some (.lookupErr "db down")) := by
  refine ⟨by decide, by decide, by decide⟩

/-- Locking an Object row that already exists changes nothing. -/
theorem lockObjectForUpdate_of_found (st : MetaState) (b : Nat) (k : String) (now : Int)
    (o : Object) (h : findObjectRow st b k = some o) :
    lockObjectForUpdate st b k now = st := by
  unfold lockObjectForUpdate
  rw [h]

/-- A successful head lookup implies the Object row exists. -/
theorem findObjectRow_of_head (st : MetaState) (b : Nat) (k : String)
    (hd : ObjectVersion) (h : getHeadVersionTx st b k = some hd) :
    ∃ o, findObjectRow st b k = some o := by
  unfold getHeadVersionTx at h
  cases hfo : findObjectRow st b k with
  | none => rw [hfo] at h; simp at h
  | some o => exact ⟨o, rfl⟩

/-- C8: the purge-delete-markers action never deletes the current head.
For any candidate that equals its key's head version at the time of the
per-key-locked transaction, the step is a skip: the state is returned
unchanged, so no row is deleted. -/
theorem purge_delete_marker_skips_current_head (st : MetaState) (dm : ObjectVersion)
    (now : Int) (hd : ObjectVersion)
    (hhead : getHeadVersionTx st dm.bucketId dm.key = some hd)
    (heq : hd.versionId = dm.versionId) :
    purgeOneDM st dm now = st := by
  obtain ⟨o, ho⟩ := findObjectRow_of_head st dm.bucketId dm.key hd hhead
  unfold purgeOneDM
  rw [lockObjectForUpdate_of_found st dm.bucketId dm.key now o ho]
  simp [hhead, heq]

/-- Witness for C8: a concrete key whose head is the old delete-marker
candidate; the purge step leaves the state untouched. -/
theorem purge_delete_marker_skips_current_head_witness :
    purgeOneDM exDMHeadState exDMHead 30 = exDMHeadState :=
  purge_delete_marker_skips_current_head exDMHeadState exDMHead 30 exDMHead rfl rfl

/-- C9: whenever an enabled rule has a non-nil, non-negative
`expire_current_after_days` but a nil `purge_delete_markers_after_days`,
the expire-current branch of the pass dereferences the nil pointer
(modelled as `none`, a worker panic); with the purge threshold also set
the branch runs without panicking. -/
theorem expire_current_panics_without_purge_days :
    (∀ (rule : LifecycleRule) (st : MetaState) (now : Int) (batch : Nat)
        (gen : Nat → String) (c : Int), rule.enabled = true →
      rule.expireCurrentAfterDays = some c → 0 ≤ c →
      rule.purgeDeleteMarkersAfterDays = none →
      onePassExpireCurrent rule st now batch gen = none) ∧
    (∀ (rule : LifecycleRule) (st : MetaState) (now : Int) (batch : Nat)
        (gen : Nat → String) (c d : Int),
      rule.expireCurrentAfterDays = some c → 0 ≤ c →
      rule.purgeDeleteMarkersAfterDays = some d →
      (onePassExpireCurrent rule st now batch gen).isSome = true) := by
  constructor
  · intro rule st now batch gen c _hen hc hc0 hp
    unfold onePassExpireCurrent
    rw [hc, hp]
    simp [hc0]
  · intro rule st now batch gen c d hc hc0 hp
    unfold onePassExpireCurrent
    rw [hc, hp]
    simp [hc0]

/-- Taking the per-key lock never changes the version table. -/
theorem versions_lock (st : MetaState) (b : Nat) (k : String) (now : Int) :
    (lockObjectForUpdate st b k now).versions = st.versions := by
  unfold lockObjectForUpdate
  cases hfo : findObjectRow st b k <;> simp [hfo]

/-- Version lookup is unaffected by taking the per-key lock. -/
theorem getVersionTx_lock (st : MetaState) (b : Nat) (k v : String) (now : Int) :
    getVersionTx (lockObjectForUpdate st b k now) v = getVersionTx st v := by
  unfold getVersionTx
  rw [versions_lock]

/-- Head updates never change the version table. -/
theorem versions_setHead (st : MetaState) (b : Nat) (k v : String) :
    (setHeadVersionTx st b k v).versions = st.versions := rfl

/-- The blob-GC block never changes the version table. -/
theorem versions_gcBlob (st : MetaState) (removed : ObjectVersion) :
    (gcBlobIfOrphan st removed).versions = st.versions := by
  unfold gcBlobIfOrphan
  cases removed.blobId with
  | none => rfl
  | some blobId =>
    dsimp only
    split <;> rfl

/-- Every version surviving the head-rewiring block was already present,
except for the freshly inserted delete-marker. -/
theorem mem_versions_rewireHead (st : MetaState) (b : Nat) (k vid dm : String)
    (now : Int) (w : ObjectVersion)
    (hw : w ∈ (rewireHead st b k vid dm now).versions) :
    w ∈ st.versions ∨ w.versionId = dm := by
  unfold rewireHead at hw
  dsimp only at hw
  split at hw
  · split at hw
    · rw [versions_setHead] at hw
      exact Or.inl hw
    · rw [versions_setHead] at hw
      rcases List.mem_append.mp hw with h | h
      · exact Or.inl h
      · right
        simp only [List.mem_singleton] at h
        rw [h]
  · exact Or.inl hw

/-- Witness for C9 at a concrete rule and state: the nil purge threshold
panics, the set one does not. -/
theorem expire_current_panics_without_purge_days_witness :
    onePassExpireCurrent exRuleC10Dnil exEmptyBucketState 20 100 (fun _ => "dm0")
      = none ∧
    (onePassExpireCurrent exRuleC10D1 exEmptyBucketState 20 100
      (fun _ => "dm0")).isSome = true :=
  ⟨expire_current_panics_without_purge_days.1 exRuleC10Dnil exEmptyBucketState 20 100
      (fun _ => "dm0") 10 rfl rfl (by decide) rfl,
   expire_current_panics_without_purge_days.2 exRuleC10D1 exEmptyBucketState 20 100
      (fun _ => "dm0") 10 1 rfl (by decide) rfl⟩

/-- The head upsert touches only the Object table. -/
theorem versions_upsert (st : MetaState) (b : Nat) (k bl : String) (sz : Int)
    (e ct hv : String) (now : Int) :
    (upsertObjectTx st b k bl sz e ct hv now).versions = st.versions := by
  unfold upsertObjectTx
  cases findObjectRow st b k <;> rfl

theorem idem_upsert (st : MetaState) (b : Nat) (k bl : String) (sz : Int)
    (e ct hv : String) (now : Int) :
    (upsertObjectTx st b k bl sz e ct hv now).idem = st.idem := by
  unfold upsertObjectTx
  cases findObjectRow st b k <;> rfl

theorem versions_saveIdem (st : MetaState) (b : Nat) (k tok v e : String) :
    (saveIdempotencyTx st b k tok v e).versions = st.versions := by
  unfold saveIdempotencyTx
  split <;> rfl

theorem idem_lock (st : MetaState) (b : Nat) (k : String) (now : Int) :
    (lockObjectForUpdate st b k now).idem = st.idem := by
  unfold lockObjectForUpdate
  cases findObjectRow st b k <;> rfl

theorem idem_setHead (st : MetaState) (b : Nat) (k v : String) :
    (setHeadVersionTx st b k v).idem = st.idem := rfl

theorem idem_insert (st : MetaState) (b : Nat) (k v bl : String) (sz : Int)
    (e ct : String) (now : Int) :
    (insertObjectVersionTx st b k v bl sz e ct now).idem = st.idem := rfl

theorem idem_storagePut (st : MetaState) (id : String) (body : List Nat) :
    (storagePut st id body).idem = st.idem := rfl

theorem idem_storageDelete (st : MetaState) (id : String) :
    (storageDelete st id).idem = st.idem := rfl

theorem idem_markReady (st : MetaState) (id : String) :
    (markBlobReadyTx st id).idem = st.idem := rfl

theorem idem_reserve (st : MetaState) (id c : String) (sz : Int) :
    (reserveBlobPendingTx st id c sz).idem = st.idem := rfl

theorem versions_insert (st : MetaState) (b : Nat) (k v bl : String) (sz : Int)
    (e ct : String) (now : Int) :
    (insertObjectVersionTx st b k v bl sz e ct now).versions
      = st.versions ++ [⟨v, b, k, some bl, some sz, some e, some ct, false, now⟩] := rfl

theorem versions_storagePut (st : MetaState) (id : String) (body : List Nat) :
    (storagePut st id body).versions = st.versions := rfl

theorem versions_storageDelete (st : MetaState) (id : String) :
    (storageDelete st id).versions = st.versions := rfl

theorem versions_markReady (st : MetaState) (id : String) :
    (markBlobReadyTx st id).versions = st.versions := rfl

theorem versions_reserve (st : MetaState) (id c : String) (sz : Int) :
    (reserveBlobPendingTx st id c sz).versions = st.versions := rfl

/-- Deleting a fresh blob id from the store right after staging it restores
the original store. -/
theorem storageDelete_of_fresh (st : MetaState) (nb : String) (body : List Nat)
    (hfresh : st.store.all (fun e => e.1 != nb) = true) :
    storageDelete (storagePut st nb body) nb = st := by
  unfold storageDelete storagePut
  have h1 : st.store.filter (fun e => e.1 != nb) = st.store :=
    List.filter_eq_self.mpr (List.all_eq_true.mp hfresh)
  have h2 : List.filter (fun e => e.1 != nb) [(nb, body)] = [] := by
    simp
  simp only [List.filter_append, h1, h2, List.append_nil]

/-- C5: PUT idempotency.  With the `(bucket, key, idem_key)` record
present, a replayed PUT returns 200 with the stored version id and ETag,
leaves the entire state unchanged (so the whole sequence created exactly
one version), and in particular the replay's freshly staged blob is
deleted from the store.  With no record present, the PUT creates exactly
one new version and records `(verId, etag)` under the token. -/
theorem put_idempotency (st : MetaState) (ownerId : Nat) (bname key tok : String)
    (bk : Bucket) (o : Object) (body : List Nat) (contentLength : Int)
    (amzSha ctypeHdr : String) (h : List Nat → String) (fb : Nat) (nb vid : String)
    (now : Int) (v0 e0 : String)
    (hbk : st.buckets.find? (fun b => b.name == bname) = some bk)
    (howner : bk.ownerId ≠ 0)
    (htok : tok ≠ "")
    (hrow : findObjectRow st bk.id key = some o)
    (hfresh : st.store.all (fun e => e.1 != nb) = true)
    (hlen : ¬(0 ≤ contentLength ∧ (body.length : Int) ≠ contentLength))
    (hsha : ¬(amzSha ≠ "" ∧ amzSha ≠ h body ∧ amzSha ≠ "UNSIGNED-PAYLOAD")) :
    (getIdempotencyTx st bk.id key tok = some (v0, e0) →
      handlePut st ownerId bname key body contentLength amzSha tok ctypeHdr h fb nb vid now
        = (st, ⟨200, "", v0, e0⟩)) ∧
    (getIdempotencyTx st bk.id key tok = none →
      (handlePut st ownerId bname key body contentLength amzSha tok ctypeHdr h fb nb vid now).2
          = ⟨200, "", vid, "\"" ++ ("sha256:" ++ h body) ++ "\""⟩ ∧
      (handlePut st ownerId bname key body contentLength amzSha tok ctypeHdr h fb nb vid now).1.versions.length
          = st.versions.length + 1 ∧
      getIdempotencyTx
          (handlePut st ownerId bname key body contentLength amzSha tok ctypeHdr h fb nb vid now).1
          bk.id key tok
        = some (vid, "\"" ++ ("sha256:" ++ h body) ++ "\"")) := by
  have hb0 : (bk.ownerId == 0) = false := beq_eq_false_iff_ne.mpr howner
  have htokb : (tok != "") = true := bne_iff_ne.mpr htok
  unfold handlePut
  unfold ensureBucket
  rw [hbk]
  simp only [hb0, Bool.false_and, Bool.false_eq_true, if_false]
  rw [if_neg hlen, if_neg hsha]
  have hlock : lockObjectForUpdate (storagePut st nb body) bk.id key now
      = storagePut st nb body :=
    lockObjectForUpdate_of_found _ _ _ _ o hrow
  rw [hlock, htokb]
  constructor
  · intro hidem
    have hidem' : getIdempotencyTx (storagePut st nb body) bk.id key tok
        = some (v0, e0) := hidem
    rw [if_pos rfl, hidem']
    rw [storageDelete_of_fresh st nb body hfresh]
  · intro hidem0
    have hidem0' : getIdempotencyTx (storagePut st nb body) bk.id key tok = none := hidem0
    rw [if_pos rfl, hidem0']
    have hfind0 : (st.idem.find? fun it =>
        it.bucketId == bk.id && it.key == key && it.idemKey == tok) = none :=
      Option.map_eq_none'.mp hidem0
    have hany : (st.idem.any fun it =>
        it.bucketId == bk.id && it.key == key && it.idemKey == tok) = false :=
      List.any_eq_false.mpr (List.find?_eq_none.mp hfind0)
    unfold putCommit
    cases hdd : findBlobByChecksumTx (storagePut st nb body) ("sha256:" ++ h body) with
    | some exist =>
      dsimp only
      rw [htokb, if_pos rfl]
      unfold saveIdempotencyTx
      simp only [idem_setHead, idem_upsert, idem_insert, idem_storageDelete,
        idem_storagePut, hany, Bool.false_eq_true, if_false]
      refine ⟨trivial, ?_, ?_⟩
      · simp only [versions_setHead, versions_upsert, versions_insert,
          versions_storageDelete, versions_storagePut, List.length_append,
          List.length_singleton]
      · unfold getIdempotencyTx
        simp only [idem_setHead, idem_upsert, idem_insert, idem_storageDelete,
          idem_storagePut]
        rw [List.find?_append, hfind0]
        simp
    | none =>
      dsimp only
      rw [htokb, if_pos rfl]
      unfold saveIdempotencyTx
      simp only [idem_setHead, idem_upsert, idem_insert, idem_markReady, idem_reserve,
        idem_storagePut, hany, Bool.false_eq_true, if_false]
      refine ⟨trivial, ?_, ?_⟩
      · simp only [versions_setHead, versions_upsert, versions_insert,
          versions_markReady, versions_reserve, versions_storagePut, List.length_append,
          List.length_singleton]
      · unfold getIdempotencyTx
        simp only [idem_setHead, idem_upsert, idem_insert, idem_markReady, idem_reserve,
          idem_storagePut]
        rw [List.find?_append, hfind0]
        simp

/-- Witness for C5: replaying the PUT of token `tok` with a different body
`[66]` returns the stored `(v1, etag)` and leaves the state — including
the store — exactly as it was. -/
theorem put_idempotency_witness :
    handlePut exReplayState 7 "b" "k" [66] (-1) "" "tok" "" exHash 99 "nb" "v2" 5
      = (exReplayState, ⟨200, "", "v1", "\"sha256:hA\""⟩) :=
  (put_idempotency exReplayState 7 "b" "k" "tok" ⟨1, "b", 7⟩
      ⟨1, "k", "bl1", 1, "\"sha256:hA\"", "ct", "v1", 0⟩ [66] (-1) "" "" exHash 99
      "nb" "v2" 5 "v1" "\"sha256:hA\"" rfl (by decide) (by decide) rfl (by decide)
      (by decide) (by decide)).1 rfl

theorem blobs_lock (st : MetaState) (b : Nat) (k : String) (now : Int) :
    (lockObjectForUpdate st b k now).blobs = st.blobs := by
  unfold lockObjectForUpdate
  cases findObjectRow st b k <;> rfl

theorem store_lock (st : MetaState) (b : Nat) (k : String) (now : Int) :
    (lockObjectForUpdate st b k now).store = st.store := by
  unfold lockObjectForUpdate
  cases findObjectRow st b k <;> rfl

theorem buckets_lock (st : MetaState) (b : Nat) (k : String) (now : Int) :
    (lockObjectForUpdate st b k now).buckets = st.buckets := by
  unfold lockObjectForUpdate
  cases findObjectRow st b k <;> rfl

theorem blobs_upsert (st : MetaState) (b : Nat) (k bl : String) (sz : Int)
    (e ct hv : String) (now : Int) :
    (upsertObjectTx st b k bl sz e ct hv now).blobs = st.blobs := by
  unfold upsertObjectTx
  cases findObjectRow st b k <;> rfl

theorem store_upsert (st : MetaState) (b : Nat) (k bl : String) (sz : Int)
    (e ct hv : String) (now : Int) :
    (upsertObjectTx st b k bl sz e ct hv now).store = st.store := by
  unfold upsertObjectTx
  cases findObjectRow st b k <;> rfl

theorem buckets_upsert (st : MetaState) (b : Nat) (k bl : String) (sz : Int)
    (e ct hv : String) (now : Int) :
    (upsertObjectTx st b k bl sz e ct hv now).buckets = st.buckets := by
  unfold upsertObjectTx
  cases findObjectRow st b k <;> rfl

theorem buckets_setHead (st : MetaState) (b : Nat) (k v : String) :
    (setHeadVersionTx st b k v).buckets = st.buckets := rfl

theorem buckets_insert (st : MetaState) (b : Nat) (k v bl : String) (sz : Int)
    (e ct : String) (now : Int) :
    (insertObjectVersionTx st b k v bl sz e ct now).buckets = st.buckets := rfl

theorem buckets_storageDelete (st : MetaState) (id : String) :
    (storageDelete st id).buckets = st.buckets := rfl

theorem buckets_storagePut (st : MetaState) (id : String) (body : List Nat) :
    (storagePut st id body).buckets = st.buckets := rfl

theorem buckets_markReady (st : MetaState) (id : String) :
    (markBlobReadyTx st id).buckets = st.buckets := rfl

theorem buckets_reserve (st : MetaState) (id c : String) (sz : Int) :
    (reserveBlobPendingTx st id c sz).buckets = st.buckets := rfl

theorem blobs_setHead (st : MetaState) (b : Nat) (k v : String) :
    (setHeadVersionTx st b k v).blobs = st.blobs := rfl

theorem blobs_insert (st : MetaState) (b : Nat) (k v bl : String) (sz : Int)
    (e ct : String) (now : Int) :
    (insertObjectVersionTx st b k v bl sz e ct now).blobs = st.blobs := rfl

theorem blobs_storageDelete (st : MetaState) (id : String) :
    (storageDelete st id).blobs = st.blobs := rfl

theorem blobs_storagePut (st : MetaState) (id : String) (body : List Nat) :
    (storagePut st id body).blobs = st.blobs := rfl

theorem blobs_markReady (st : MetaState) (id : String) :
    (markBlobReadyTx st id).blobs
      = st.blobs.map (fun b => if b.id == id then { b with state := "ready" } else b) := rfl

theorem blobs_reserve (st : MetaState) (id c : String) (sz : Int) :
    (reserveBlobPendingTx st id c sz).blobs = st.blobs ++ [⟨id, sz, c, "pending"⟩] := rfl

theorem store_setHead (st : MetaState) (b : Nat) (k v : String) :
    (setHeadVersionTx st b k v).store = st.store := rfl

theorem store_insert (st : MetaState) (b : Nat) (k v bl : String) (sz : Int)
    (e ct : String) (now : Int) :
    (insertObjectVersionTx st b k v bl sz e ct now).store = st.store := rfl

theorem store_storageDelete (st : MetaState) (id : String) :
    (storageDelete st id).store = st.store.filter (fun e => e.1 != id) := rfl

theorem store_storagePut (st : MetaState) (id : String) (body : List Nat) :
    (storagePut st id body).store = st.store ++ [(id, body)] := rfl

theorem store_markReady (st : MetaState) (id : String) :
    (markBlobReadyTx st id).store = st.store := rfl

theorem store_reserve (st : MetaState) (id c : String) (sz : Int) :
    (reserveBlobPendingTx st id c sz).store = st.store := rfl

/-- Mapping a function that fixes every member is the identity. -/
theorem list_map_id_of {α : Type} (l : List α) (f : α → α)
    (hid : ∀ a ∈ l, f a = a) : l.map f = l := by
  induction l with
  | nil => rfl
  | cons x xs ih =>
    simp only [List.map_cons, hid x (by simp)]
    rw [ih fun a ha => hid a (by simp [ha])]

/-- Appending a fresh store entry and filtering it out again restores the
original list. -/
theorem store_filter_fresh (l : List (String × List Nat)) (nb : String)
    (body : List Nat) (hf : l.all (fun e => e.1 != nb) = true) :
    (l ++ [(nb, body)]).filter (fun e => e.1 != nb) = l := by
  rw [List.filter_append, List.filter_eq_self.mpr (List.all_eq_true.mp hf)]
  simp

/-- Reserving and readying a blob id absent from the table appends one
ready record. -/
theorem blobs_markReady_reserve (st : MetaState) (nb c : String) (sz : Int)
    (hf : st.blobs.all (fun b => b.id != nb) = true) :
    (markBlobReadyTx (reserveBlobPendingTx st nb c sz) nb).blobs
      = st.blobs ++ [⟨nb, sz, c, "ready"⟩] := by
  unfold markBlobReadyTx reserveBlobPendingTx
  dsimp only
  rw [List.map_append]
  congr 1
  · apply list_map_id_of
    intro b hb
    have := List.all_eq_true.mp hf b hb
    simp [beq_eq_false_iff_ne.mpr (bne_iff_ne.mp this)]
  · simp

/-- A successful PUT with no idempotency token: 200 with the fresh
version id and the ETag of the body's checksum; buckets and idempotency
records unchanged; depending on the dedup probe on the pre-state, the new
version row references either the existing ready blob or the freshly
staged one. -/
theorem handlePut_noIdem (st : MetaState) (ownerId : Nat) (bname key : String)
    (bk : Bucket) (body : List Nat) (h : List Nat → String) (fb : Nat)
    (nb vid : String) (now : Int)
    (hbk : st.buckets.find? (fun b => b.name == bname) = some bk)
    (howner : bk.ownerId ≠ 0) :
    (handlePut st ownerId bname key body (-1) "" "" "" h fb nb vid now).2
      = ⟨200, "", vid, "\"" ++ ("sha256:" ++ h body) ++ "\""⟩ ∧
    (handlePut st ownerId bname key body (-1) "" "" "" h fb nb vid now).1.buckets
      = st.buckets ∧
    (handlePut st ownerId bname key body (-1) "" "" "" h fb nb vid now).1.idem
      = st.idem ∧
    (match findBlobByChecksumTx st ("sha256:" ++ h body) with
     | some exist =>
        (handlePut st ownerId bname key body (-1) "" "" "" h fb nb vid now).1.versions
          = st.versions ++
            [⟨vid, bk.id, key, some exist.id, some exist.size,
              some ("\"" ++ ("sha256:" ++ h body) ++ "\""),
              some "application/octet-stream", false, now⟩] ∧
        (handlePut st ownerId bname key body (-1) "" "" "" h fb nb vid now).1.blobs
          = st.blobs ∧
        (handlePut st ownerId bname key body (-1) "" "" "" h fb nb vid now).1.store
          = (st.store ++ [(nb, body)]).filter (fun e => e.1 != nb)
     | none =>
        (handlePut st ownerId bname key body (-1) "" "" "" h fb nb vid now).1.versions
          = st.versions ++
            [⟨vid, bk.id, key, some nb, some (body.length : Int),
              some ("\"" ++ ("sha256:" ++ h body) ++ "\""),
              some "application/octet-stream", false, now⟩] ∧
        (handlePut st ownerId bname key body (-1) "" "" "" h fb nb vid now).1.blobs
          = (st.blobs ++ [(⟨nb, body.length, "sha256:" ++ h body, "pending"⟩ : Blob)]).map
              (fun b => if b.id == nb then { b with state := "ready" } else b) ∧
        (handlePut st ownerId bname key body (-1) "" "" "" h fb nb vid now).1.store
          = st.store ++ [(nb, body)]) := by
  have hb0 : (bk.ownerId == 0) = false := beq_eq_false_iff_ne.mpr howner
  have hlen : ¬((0 : Int) ≤ -1 ∧ (body.length : Int) ≠ -1) := fun hc => by
    have := hc.1
    norm_num at this
  have hsha : ¬(("" : String) ≠ "" ∧ ("" : String) ≠ h body ∧
      ("" : String) ≠ "UNSIGNED-PAYLOAD") := fun hc => hc.1 rfl
  unfold handlePut
  unfold ensureBucket
  rw [hbk]
  simp only [hb0, Bool.false_and, Bool.false_eq_true, if_false]
  rw [if_neg hlen, if_neg hsha]
  have hfind : findBlobByChecksumTx
      (lockObjectForUpdate (storagePut st nb body) bk.id key now)
      ("sha256:" ++ h body) = findBlobByChecksumTx st ("sha256:" ++ h body) := by
    unfold findBlobByChecksumTx
    rw [blobs_lock]
    rfl
  unfold putCommit
  rw [hfind]
  cases hdd : findBlobByChecksumTx st ("sha256:" ++ h body) with
  | some exist =>
    dsimp only
    simp only [show (("" : String) != "") = false from rfl, Bool.false_eq_true, if_false]
    refine ⟨trivial, ?_, ?_, ?_, ?_, ?_⟩
    · simp only [buckets_setHead, buckets_upsert, buckets_insert,
        buckets_storageDelete, buckets_lock, buckets_storagePut]
    · simp only [idem_setHead, idem_upsert, idem_insert, idem_storageDelete,
        idem_lock, idem_storagePut]
    · simp only [versions_setHead, versions_upsert, versions_insert,
        versions_storageDelete, versions_lock, versions_storagePut]
      try rfl
    · simp only [blobs_setHead, blobs_upsert, blobs_insert, blobs_storageDelete,
        blobs_lock, blobs_storagePut]
      try rfl
    · simp only [store_setHead, store_upsert, store_insert, store_storageDelete,
        store_lock, store_storagePut]
      try rfl
  | none =>
    dsimp only
    simp only [show (("" : String) != "") = false from rfl, Bool.false_eq_true, if_false]
    refine ⟨trivial, ?_, ?_, ?_, ?_, ?_⟩
    · simp only [buckets_setHead, buckets_upsert, buckets_insert, buckets_markReady,
        buckets_reserve, buckets_lock, buckets_storagePut]
    · simp only [idem_setHead, idem_upsert, idem_insert, idem_markReady, idem_reserve,
        idem_lock, idem_storagePut]
    · simp only [versions_setHead, versions_upsert, versions_insert, versions_markReady,
        versions_reserve, versions_lock, versions_storagePut]
      try rfl
    · simp only [blobs_setHead, blobs_upsert, blobs_insert, blobs_markReady,
        blobs_reserve, blobs_lock, blobs_storagePut]
      try rfl
    · simp only [store_setHead, store_upsert, store_insert, store_markReady,
        store_reserve, store_lock, store_storagePut]
      try rfl

/-- C6: dedup.  Two successful PUTs of the same body (no idempotency
token, fresh distinct ids) produce two version rows that reference the
same `blob_id`, and the second PUT's freshly staged store copy `nb2` is
gone from the final store.  The common blob is the existing ready blob
with the body's checksum when one exists, and the first PUT's blob
otherwise. -/
theorem put_dedup (st : MetaState) (ownerId : Nat) (bname key1 key2 : String)
    (bk : Bucket) (body : List Nat) (h : List Nat → String) (fb1 fb2 : Nat)
    (nb1 nb2 v1 v2 : String) (now1 now2 : Int)
    (hbk : st.buckets.find? (fun b => b.name == bname) = some bk)
    (howner : bk.ownerId ≠ 0)
    (hv12 : v1 ≠ v2)
    (hblobfresh : st.blobs.all (fun b => b.id != nb1) = true)
    (hvf1 : st.versions.all (fun w => w.versionId != v1) = true)
    (hvf2 : st.versions.all (fun w => w.versionId != v2) = true) :
    ∃ B,
      (getVersionTx (handlePut (handlePut st ownerId bname key1 body (-1) "" "" "" h
          fb1 nb1 v1 now1).1 ownerId bname key2 body (-1) "" "" "" h fb2 nb2 v2
          now2).1 v1).map (·.blobId) = some (some B) ∧
      (getVersionTx (handlePut (handlePut st ownerId bname key1 body (-1) "" "" "" h
          fb1 nb1 v1 now1).1 ownerId bname key2 body (-1) "" "" "" h fb2 nb2 v2
          now2).1 v2).map (·.blobId) = some (some B) ∧
      (handlePut st ownerId bname key1 body (-1) "" "" "" h fb1 nb1 v1 now1).2.versionId
        = v1 ∧
      (handlePut (handlePut st ownerId bname key1 body (-1) "" "" "" h fb1 nb1 v1
          now1).1 ownerId bname key2 body (-1) "" "" "" h fb2 nb2 v2 now2).2.versionId
        = v2 ∧
      ((handlePut (handlePut st ownerId bname key1 body (-1) "" "" "" h fb1 nb1 v1
          now1).1 ownerId bname key2 body (-1) "" "" "" h fb2 nb2 v2
          now2).1.store.all (fun e => e.1 != nb2)) = true := by
  obtain ⟨h1snd, h1buckets, h1idem, h1rest⟩ :=
    handlePut_noIdem st ownerId bname key1 bk body h fb1 nb1 v1 now1 hbk howner
  have hbk2 : (handlePut st ownerId bname key1 body (-1) "" "" "" h fb1 nb1 v1
      now1).1.buckets.find? (fun b => b.name == bname) = some bk := by
    rw [h1buckets]
    exact hbk
  obtain ⟨h2snd, h2buckets, h2idem, h2rest⟩ :=
    handlePut_noIdem (handlePut st ownerId bname key1 body (-1) "" "" "" h fb1 nb1 v1
      now1).1 ownerId bname key2 bk body h fb2 nb2 v2 now2 hbk2 howner
  have hfv1 : (st.versions.find? fun w => w.versionId == v1) = none :=
    List.find?_eq_none.mpr fun x hx => by
      have hxx := bne_iff_ne.mp (List.all_eq_true.mp hvf1 x hx)
      simp [hxx]
  have hfv2 : (st.versions.find? fun w => w.versionId == v2) = none :=
    List.find?_eq_none.mpr fun x hx => by
      have hxx := bne_iff_ne.mp (List.all_eq_true.mp hvf2 x hx)
      simp [hxx]
  have hne12 : (v1 == v2) = false := beq_eq_false_iff_ne.mpr hv12
  cases hdd : findBlobByChecksumTx st ("sha256:" ++ h body) with
  | some r0 =>
    rw [hdd] at h1rest
    obtain ⟨h1v, h1b, h1s⟩ := h1rest
    have hdd2 : findBlobByChecksumTx (handlePut st ownerId bname key1 body (-1) "" ""
        "" h fb1 nb1 v1 now1).1 ("sha256:" ++ h body) = some r0 := by
      unfold findBlobByChecksumTx
      rw [h1b]
      exact hdd
    rw [hdd2] at h2rest
    obtain ⟨h2v, h2b, h2s⟩ := h2rest
    refine ⟨r0.id, ?_, ?_, ?_, ?_, ?_⟩
    · unfold getVersionTx
      rw [h2v, h1v, List.find?_append, List.find?_append, hfv1]
      simp
    · unfold getVersionTx
      rw [h2v, h1v, List.find?_append, List.find?_append, hfv2]
      simp [hne12]
    · rw [h1snd]
    · rw [h2snd]
    · rw [h2s]
      exact List.all_eq_true.mpr fun e he => (List.mem_filter.mp he).2
  | none =>
    rw [hdd] at h1rest
    obtain ⟨h1v, h1b, h1s⟩ := h1rest
    have h1b' : (handlePut st ownerId bname key1 body (-1) "" "" "" h fb1 nb1 v1
        now1).1.blobs = st.blobs ++
          [⟨nb1, (body.length : Int), "sha256:" ++ h body, "ready"⟩] := by
      rw [h1b, List.map_append]
      congr 1
      · apply list_map_id_of
        intro b hb
        have := List.all_eq_true.mp hblobfresh b hb
        simp [beq_eq_false_iff_ne.mpr (bne_iff_ne.mp this)]
      · simp
    have hdd2 : findBlobByChecksumTx (handlePut st ownerId bname key1 body (-1) "" ""
        "" h fb1 nb1 v1 now1).1 ("sha256:" ++ h body)
        = some ⟨nb1, (body.length : Int), "sha256:" ++ h body, "ready"⟩ := by
      unfold findBlobByChecksumTx
      rw [h1b', List.find?_append]
      have hnone : (st.blobs.find? fun b =>
          b.checksum == "sha256:" ++ h body && b.state == "ready") = none := hdd
      rw [hnone]
      simp
    rw [hdd2] at h2rest
    obtain ⟨h2v, h2b, h2s⟩ := h2rest
    refine ⟨nb1, ?_, ?_, ?_, ?_, ?_⟩
    · unfold getVersionTx
      rw [h2v, h1v, List.find?_append, List.find?_append, hfv1]
      simp
    · unfold getVersionTx
      rw [h2v, h1v, List.find?_append, List.find?_append, hfv2]
      simp [hne12]
    · rw [h1snd]
    · rw [h2snd]
    · rw [h2s]
      exact List.all_eq_true.mpr fun e he => (List.mem_filter.mp he).2

/-- Witness for C6: two PUTs of body `[88]` into a fresh bucket; both
versions share one blob id and the second staged copy is deleted. -/
theorem put_dedup_witness :
    ∃ B,
      (getVersionTx (handlePut (handlePut exFreshBucketState 7 "b" "k1" [88] (-1) ""
          "" "" exHash 99 "nb1" "v1" 1).1 7 "b" "k2" [88] (-1) "" "" "" exHash 98
          "nb2" "v2" 2).1 "v1").map (·.blobId) = some (some B) ∧
      (getVersionTx (handlePut (handlePut exFreshBucketState 7 "b" "k1" [88] (-1) ""
          "" "" exHash 99 "nb1" "v1" 1).1 7 "b" "k2" [88] (-1) "" "" "" exHash 98
          "nb2" "v2" 2).1 "v2").map (·.blobId) = some (some B) ∧
      (handlePut exFreshBucketState 7 "b" "k1" [88] (-1) "" "" "" exHash 99 "nb1"
          "v1" 1).2.versionId = "v1" ∧
      (handlePut (handlePut exFreshBucketState 7 "b" "k1" [88] (-1) "" "" "" exHash
          99 "nb1" "v1" 1).1 7 "b" "k2" [88] (-1) "" "" "" exHash 98 "nb2" "v2"
          2).2.versionId = "v2" ∧
      ((handlePut (handlePut exFreshBucketState 7 "b" "k1" [88] (-1) "" "" "" exHash
          99 "nb1" "v1" 1).1 7 "b" "k2" [88] (-1) "" "" "" exHash 98 "nb2" "v2"
          2).1.store.all (fun e => e.1 != "nb2")) = true :=
  put_dedup exFreshBucketState 7 "b" "k1" "k2" ⟨1, "b", 7⟩ [88] exHash 99 98
    "nb1" "nb2" "v1" "v2" 1 2 rfl (by decide) (by decide) (by decide) (by decide)
    (by decide)

theorem digit_not_dash (c : Char) (h : c.isDigit = true) : (c == '-') = false := by
  cases hbe : c == '-' with
  | false => rfl
  | true =>
    have : c = '-' := eq_of_beq hbe
    rw [this] at h
    exact absurd h (by decide)

theorem digit_not_plus (c : Char) (h : c.isDigit = true) : (c == '+') = false := by
  cases hbe : c == '+' with
  | false => rfl
  | true =>
    have : c = '+' := eq_of_beq hbe
    rw [this] at h
    exact absurd h (by decide)

/-- Splitting at the first dash of `a ++ '-' :: z` when `a` has no dash. -/
theorem splitAtFirstDash_append (a z : List Char)
    (h : ∀ c ∈ a, (c == '-') = false) :
    splitAtFirstDash (a ++ '-' :: z) = some (a, z) := by
  induction a with
  | nil => simp [splitAtFirstDash]
  | cons c cs ih =>
    have hc := h c (by simp)
    simp only [List.cons_append, splitAtFirstDash, hc, Bool.false_eq_true, if_false]
    rw [List.append_eq, ih fun d hd => h d (by simp [hd])]

/-- The handler's ParseInt on a nonempty all-digit string is the numeric
value. -/
theorem goParseInt_digits (cs : List Char) (h1 : cs ≠ [])
    (h2 : cs.all Char.isDigit = true) : goParseInt cs = (natOfDigits cs : Int) := by
  cases cs with
  | nil => exact absurd rfl h1
  | cons c rest =>
    have hc : c.isDigit = true := List.all_eq_true.mp h2 c (by simp)
    unfold goParseInt
    simp only [digit_not_plus c hc, digit_not_dash c hc, Bool.false_eq_true, if_false,
      h2, if_true]

theorem isEmpty_false_of_ne_nil {α : Type} (l : List α) (h : l ≠ []) :
    l.isEmpty = false := by
  cases l with
  | nil => exact absurd rfl h
  | cons x xs => rfl

theorem rangeDecision_mk_spec (total : Int) (spec : List Char) :
    rangeDecision total
      (String.mk ('b' :: 'y' :: 't' :: 'e' :: 's' :: '=' :: spec)) =
      rangeSpec total spec := rfl

/-- The `bytes=a-b` case of the Range parser, for digit strings. -/
theorem rangeSpec_ab (total : Int) (sa sb : List Char)
    (hsa : sa ≠ []) (hsad : sa.all Char.isDigit = true)
    (hsb : sb ≠ []) (hsbd : sb.all Char.isDigit = true) :
    rangeSpec total (sa ++ '-' :: sb) =
      if (natOfDigits sb : Int) < (natOfDigits sa : Int) ∨ total ≤ (natOfDigits sa : Int)
      then .invalidRange
      else .part (natOfDigits sa) ((natOfDigits sb : Int) - (natOfDigits sa : Int) + 1)
        ("bytes " ++ toString ((natOfDigits sa : Int)) ++ "-" ++
          toString ((natOfDigits sb : Int)) ++ "/" ++ toString total) := by
  unfold rangeSpec
  rw [splitAtFirstDash_append sa sb
    (fun c hc => digit_not_dash c (List.all_eq_true.mp hsad c hc))]
  simp only [isEmpty_false_of_ne_nil sa hsa, isEmpty_false_of_ne_nil sb hsb,
    Bool.not_false, Bool.and_self, if_true,
    goParseInt_digits sa hsa hsad, goParseInt_digits sb hsb hsbd]
  have hA : ¬((natOfDigits sa : Int) < 0) := by
    simp
  rw [if_congr (or_iff_right hA) rfl rfl]

/-- The `bytes=a-` case of the Range parser, for a digit string. -/
theorem rangeSpec_aDash (total : Int) (sa : List Char)
    (hsa : sa ≠ []) (hsad : sa.all Char.isDigit = true) :
    rangeSpec total (sa ++ ['-']) =
      if total ≤ (natOfDigits sa : Int) then .invalidRange
      else .part (natOfDigits sa) (total - (natOfDigits sa : Int))
        ("bytes " ++ toString ((natOfDigits sa : Int)) ++ "-" ++ toString (total - 1)
          ++ "/" ++ toString total) := by
  unfold rangeSpec
  rw [show (sa ++ ['-'] : List Char) = sa ++ '-' :: [] from rfl]
  rw [splitAtFirstDash_append sa []
    (fun c hc => digit_not_dash c (List.all_eq_true.mp hsad c hc))]
  simp only [isEmpty_false_of_ne_nil sa hsa, List.isEmpty_nil, Bool.not_false,
    Bool.not_true, Bool.and_false, Bool.false_eq_true, if_false, Bool.not_false,
    if_true, goParseInt_digits sa hsa hsad]
  have hA : ¬((natOfDigits sa : Int) < 0) := by
    simp
  rw [if_congr (or_iff_right hA) rfl rfl]

/-- The `bytes=-n` case of the Range parser, for a digit string. -/
theorem rangeSpec_suffix (total : Int) (sn : List Char)
    (hsn : sn ≠ []) (hsnd : sn.all Char.isDigit = true) :
    rangeSpec total ('-' :: sn) =
      if (natOfDigits sn : Int) ≤ 0 then .invalidRange
      else
        (let zs : Int := if total < (natOfDigits sn : Int) then total
          else (natOfDigits sn : Int)
        .part (total - zs) zs
          ("bytes " ++ toString (total - zs) ++ "-" ++ toString (total - 1) ++ "/" ++
            toString total)) := by
  unfold rangeSpec
  rw [show splitAtFirstDash ('-' :: sn) = some ([], sn) by simp [splitAtFirstDash]]
  simp only [isEmpty_false_of_ne_nil sn hsn, List.isEmpty_nil, Bool.not_true,
    Bool.false_and, Bool.false_eq_true, if_false, Bool.not_false, if_true,
    goParseInt_digits sn hsn hsnd]

/-- C7 counterexample: a syntactically invalid range is not rejected with
416 — `bytes=x-y` parses its broken numbers as 0 and serves byte 0 with
206 — and the empty range `bytes=-` is ignored entirely (200, full
body). -/
theorem range_invalid_not_rejected :
    (serveRange 6 "bytes=x-y" exAbcdef).status = 206 ∧
    serveRange 6 "bytes=x-y" exAbcdef ≠ ⟨416, [], none⟩ ∧
    serveRange 6 "bytes=-" exAbcdef = ⟨200, exAbcdef, none⟩ := by
  refine ⟨by decide, by decide, by decide⟩

/-- C7 amended: for well-formed numeric ranges the handler behaves as the
claim states — `bytes=a-b` is rejected with 416 iff `b < a` or `a ≥ S`
and otherwise answers 206 with a Content-Range header and the clamped
bytes `[a, a+(b-a+1))`; `bytes=a-` is rejected iff `a ≥ S`, else serves
`[a, S)`; `bytes=-n` is rejected iff `n = 0`, else serves the last
`min(n, S)` bytes — and the spec's three literal examples hold; but a
range whose numeric part fails to parse is treated as 0 rather than
rejected (`bytes=x-y` answers 206 with byte 0) and the empty range
`bytes=-` is ignored (200, full body). -/
theorem range_request_semantics (body : List Nat) (sa sb sn : List Char)
    (hsa : sa ≠ []) (hsad : sa.all Char.isDigit = true)
    (hsb : sb ≠ []) (hsbd : sb.all Char.isDigit = true)
    (hsn : sn ≠ []) (hsnd : sn.all Char.isDigit = true) :
    serveRange (body.length : Int)
        (String.mk ('b' :: 'y' :: 't' :: 'e' :: 's' :: '=' :: (sa ++ '-' :: sb))) body
      = (if (natOfDigits sb : Int) < (natOfDigits sa : Int) ∨
            (body.length : Int) ≤ (natOfDigits sa : Int)
         then ⟨416, [], none⟩
         else ⟨206,
           (body.drop (natOfDigits sa)).take
             ((natOfDigits sb : Int) - (natOfDigits sa : Int) + 1).toNat,
           some ("bytes " ++ toString ((natOfDigits sa : Int)) ++ "-" ++
             toString ((natOfDigits sb : Int)) ++ "/" ++
             toString ((body.length : Int)))⟩) ∧
    serveRange (body.length : Int)
        (String.mk ('b' :: 'y' :: 't' :: 'e' :: 's' :: '=' :: (sa ++ ['-']))) body
      = (if (body.length : Int) ≤ (natOfDigits sa : Int)
         then ⟨416, [], none⟩
         else ⟨206, body.drop (natOfDigits sa),
           some ("bytes " ++ toString ((natOfDigits sa : Int)) ++ "-" ++
             toString ((body.length : Int) - 1) ++ "/" ++
             toString ((body.length : Int)))⟩) ∧
    serveRange (body.length : Int)
        (String.mk ('b' :: 'y' :: 't' :: 'e' :: 's' :: '=' :: ('-' :: sn))) body
      = (if (natOfDigits sn : Int) ≤ 0
         then ⟨416, [], none⟩
         else
           (let zs : Int := if (body.length : Int) < (natOfDigits sn : Int)
              then (body.length : Int) else (natOfDigits sn : Int)
            ⟨206, (body.drop ((body.length : Int) - zs).toNat).take zs.toNat,
              some ("bytes " ++ toString ((body.length : Int) - zs) ++ "-" ++
                toString ((body.length : Int) - 1) ++ "/" ++
                toString ((body.length : Int)))⟩)) ∧
    serveRange 6 "bytes=1-3" exAbcdef = ⟨206, [98, 99, 100], some "bytes 1-3/6"⟩ ∧
    serveRange 6 "bytes=-2" exAbcdef = ⟨206, [101, 102], some "bytes 4-5/6"⟩ ∧
    serveRange 6 "bytes=10-20" exAbcdef = ⟨416, [], none⟩ ∧
    serveRange 6 "bytes=x-y" exAbcdef = ⟨206, [97], some "bytes 0-0/6"⟩ ∧
    serveRange 6 "bytes=-" exAbcdef = ⟨200, exAbcdef, none⟩ := by
  refine ⟨?_, ?_, ?_, by decide, by decide, by decide, by decide, by decide⟩
  · unfold serveRange
    rw [rangeDecision_mk_spec, rangeSpec_ab (body.length : Int) sa sb hsa hsad hsb hsbd]
    by_cases hc : (natOfDigits sb < natOfDigits sa ∨ body.length ≤ natOfDigits sa)
    · simp [hc]
    · simp [hc, Int.toNat_natCast]
  · unfold serveRange
    rw [rangeDecision_mk_spec, rangeSpec_aDash (body.length : Int) sa hsa hsad]
    by_cases hc : (body.length ≤ natOfDigits sa)
    · simp [hc]
    · have halt : natOfDigits sa < body.length := by
        omega
      have h1 : ((body.length : Int) - (natOfDigits sa : Int)).toNat
          = body.length - natOfDigits sa := by
        omega
      have h2 : (body.drop (natOfDigits sa)).take (body.length - natOfDigits sa)
          = body.drop (natOfDigits sa) :=
        List.take_of_length_le (by simp [List.length_drop])
      simp [hc, Int.toNat_natCast, h1, h2]
  · unfold serveRange
    rw [rangeDecision_mk_spec, rangeSpec_suffix (body.length : Int) sn hsn hsnd]
    by_cases hn : (natOfDigits sn = 0)
    · simp [hn]
    · simp [hn]

/-- Witness for C7: the amended statement applied at the spec's literal
example `bytes=1-3` on the 6-byte body. -/
theorem range_request_semantics_witness :
    serveRange (6 : Int) (String.mk ['b', 'y', 't', 'e', 's', '=', '1', '-', '3'])
      exAbcdef = ⟨206, [98, 99, 100], some "bytes 1-3/6"⟩ :=
  ((range_request_semantics exAbcdef ['1'] ['3'] ['2'] (by decide) (by decide)
      (by decide) (by decide) (by decide) (by decide)).1).trans (by decide)

/-- C10: a `versionId` query parameter is resolved by version id alone.
No hypothesis below relates `ver.bucketId` or `ver.key` to the requested
bucket `bid` or `key`: whenever the supplied id names any existing
non-delete version — of any bucket and key — GET answers 200 with that
version's blob bytes, and versioned DELETE answers 204 and removes that
version row, instead of NoSuchKey / NoSuchVersion for the requested
path. -/
theorem versionId_lookup_ignores_bucket_and_key
    (st : MetaState) (ownerId bid : Nat) (bname key vid : String)
    (ver : ObjectVersion) (blid : String) (bl : Blob) (bytes : List Nat)
    (freshDm : String) (now : Int)
    (hbucket : bucketIdByName st bname ownerId = some bid)
    (hvid : vid ≠ "")
    (hver : getVersionTx st vid = some ver)
    (hdel : ver.isDelete = false)
    (hblob : ver.blobId = some blid)
    (hgb : getBlob st blid = some bl)
    (hstore : st.store.find? (fun e => e.1 == blid) = some (blid, bytes))
    (hdm : freshDm ≠ vid) :
    handleGet st ownerId bname key vid "" "" "" = .ok 200 ver.versionId ver.etag none bytes ∧
    (handleDelete st ownerId bname key vid freshDm now).2 = .noContent204 vid ∧
    ∀ w ∈ (handleDelete st ownerId bname key vid freshDm now).1.versions,
      w.versionId ≠ vid := by
  have hvb : (vid == "") = false := beq_eq_false_iff_ne.mpr hvid
  have hver1 : getVersionTx (lockObjectForUpdate st bid key now) vid = some ver := by
    rw [getVersionTx_lock]
    exact hver
  refine ⟨?_, ?_, ?_⟩
  · unfold handleGet
    rw [hbucket]
    simp only [hvb, Bool.false_eq_true, if_false, hver, hdel, hblob, hgb]
    obtain ⟨vvid, vvb, vvk, vvblob, vvsize, vvetag, vvct, vvisd, vvca⟩ := ver
    cases vvetag with
    | none =>
      simp only [Bool.false_eq_true, if_false]
      unfold storageReadAt
      rw [hstore]
      simp
      rw [show rangeDecision bl.size "" = RangeOutcome.full from rfl]
    | some e =>
      simp only [show (("" : String) != "") = false from rfl, Bool.false_and,
        Bool.false_eq_true, if_false]
      unfold storageReadAt
      rw [hstore]
      simp
      rw [show rangeDecision bl.size "" = RangeOutcome.full from rfl]
  · unfold handleDelete
    rw [hbucket]
    simp only [hvb, Bool.false_eq_true, if_false]
    unfold versionedDeleteTx
    rw [hver1]
  · unfold handleDelete
    rw [hbucket]
    simp only [hvb, Bool.false_eq_true, if_false]
    unfold versionedDeleteTx
    rw [hver1]
    intro w hw
    simp only [versions_gcBlob] at hw
    rcases mem_versions_rewireHead _ _ _ _ _ _ _ hw with h | h
    · have := List.mem_filter.mp h
      exact bne_iff_ne.mp this.2
    · rw [h]
      exact hdm

/-- Witness for C10: version `vB` lives in bucket `b2` under key `k2`,
yet `GET /b1/k1?versionId=vB` serves `b2/k2`'s bytes and
`DELETE /b1/k1?versionId=vB` deletes it with 204. -/
theorem versionId_lookup_ignores_bucket_and_key_witness :
    handleGet exCrossState 7 "b1" "k1" "vB" "" "" ""
      = .ok 200 "vB" (some "eB") none [66] ∧
    (handleDelete exCrossState 7 "b1" "k1" "vB" "dmF" 9).2 = .noContent204 "vB" ∧
    ∀ w ∈ (handleDelete exCrossState 7 "b1" "k1" "vB" "dmF" 9).1.versions,
      w.versionId ≠ "vB" :=
  versionId_lookup_ignores_bucket_and_key exCrossState 7 1 "b1" "k1" "vB"
    ⟨"vB", 2, "k2", some "blB", some 1, some "eB", some "ct", false, 0⟩ "blB"
    ⟨"blB", 1, "sha256:b", "ready"⟩ [66] "dmF" 9 (by decide) (by decide) (by decide)
    rfl rfl (by decide) (by decide) (by decide)


